import Mathlib

/-!
Verification of `src/packages/list/src/mwc-list-base.ts` (the `ListBase`
web component). The TypeScript class is shallowly embedded: DOM list items
become a `ListItem` structure, the external MDC list foundation (a
third-party object the component delegates to) is modelled abstractly as a
record of its settings together with the selected index it stores, and
fallible code paths (JavaScript `TypeError` on dereferencing `undefined`)
are embedded as `Option` results, `none` meaning the callback throws.
Foundation method invocations and dispatched custom events are made
explicit as returned traces.
-/

namespace MwcList

/-- A slotted list-item element (`ListItemBase` instance).  `id`
distinguishes distinct DOM nodes; `attrs` holds the names of its boolean
marker attributes (`mwc-list-item`, `mwc-check-list-item`, ...); `kvAttrs`
holds valued attributes (`role`, ...); `classes` is its CSS class list. -/
structure ListItem where
  id : Nat
  selected : Bool := false
  disabled : Bool := false
  attrs : List String := []
  kvAttrs : List (String × String) := []
  classes : List String := []
deriving Repr, DecidableEq

/-- Embeds `element.hasAttribute name` on a list item: true for both boolean
marker attributes and valued attributes. -/
def ListItem.hasAttr (it : ListItem) (name : String) : Bool :=
  it.attrs.contains name || it.kvAttrs.any (fun p => p.1 = name)

/-- Embeds `element.getAttribute name`: the value of a valued attribute, `""` for
a bare boolean attribute, `null` (here `none`) when absent. -/
def ListItem.getAttr (it : ListItem) (name : String) : Option String :=
  match it.kvAttrs.find? (fun p => p.1 = name) with
  | some p => some p.2
  | none => if it.attrs.contains name then some "" else none

/-- A DOM node as seen on an event's composed path or on the active-element
path: either a `ListItemBase` instance or some other node. -/
inductive DomNode where
  | item (it : ListItem)
  | other (id : Nat) (attrs : List String)
deriving Repr, DecidableEq

/-- Embeds `node.hasAttribute name` for a `DomNode`. -/
def DomNode.hasAttr (n : DomNode) (name : String) : Bool :=
  match n with
  | .item it => it.hasAttr name
  | .other _ attrs => attrs.contains name

/-- The value the foundation stores for its selected index:
`number | number[]` in TypeScript. -/
inductive MDCListIndex where
  | one (i : Int)
  | many (l : List Int)
deriving Repr, DecidableEq

/-- Abstract model of the external `MDCListFoundation` object: the settings
the component writes through its setters, and the selected index the
component reads back through `getSelectedIndex`. -/
structure MDCListFoundation where
  singleSelection : Bool := false
  useActivatedClass : Bool := false
  wrapFocus : Bool := false
  selectedIndex : MDCListIndex := .one (-1)
deriving Repr, DecidableEq

/-- Embeds `foundation.getSelectedIndex()` on the abstract foundation model. -/
def MDCListFoundation.getSelectedIndex (f : MDCListFoundation) : MDCListIndex :=
  f.selectedIndex

/-- The root `<ul class="mdc-list">` element, when rendered.
`activeElementIsRoot` models whether `root.getRootNode().activeElement`
is the root itself (read by the `isRootFocused` adapter callback). -/
structure RootElement where
  activeElementIsRoot : Bool := false
deriving Repr, DecidableEq

/-- The state of a `ListBase` component instance. -/
structure ListBase where
  mdcFoundation : Option MDCListFoundation := none
  mdcRoot : Option RootElement := none
  items_ : List ListItem := []
  selectable : Bool := false
  activatable : Bool := false
  wrapFocus : Bool := false
  itemRoles : Option String := none
deriving Repr, DecidableEq

/-- The `items` getter: returns `items_`. -/
def ListBase.items (s : ListBase) : List ListItem :=
  s.items_

/-- JavaScript array indexing `arr[index]` with a possibly negative or
out-of-range `number` index: yields `undefined` (here `none`) outside
`0 ≤ index < arr.length`. -/
def jsGet (l : List ListItem) (i : Int) : Option ListItem :=
  if i < 0 then none else l.get? i.toNat

/-- JavaScript `Array.prototype.indexOf`: index of the first occurrence,
`-1` when absent. -/
def jsIndexOf : List ListItem → ListItem → Int
  | [], _ => -1
  | a :: as, x =>
    if a = x then 0
    else
      let r := jsIndexOf as x
      if r = -1 then -1 else r + 1

/-- A DOM event as the component's handlers see it: its composed path, its
target, the `hasCheckboxOrRadio` flag of a `request-selected` detail, and
the propagation/default flags a handler could set. -/
structure Event where
  path : List DomNode
  target : DomNode := .other 0 []
  detailHasCheckboxOrRadio : Bool := false
  propagationStopped : Bool := false
  immediatePropagationStopped : Bool := false
  defaultPrevented : Bool := false
deriving Repr, DecidableEq

/-- Embeds `evt.stopPropagation()`. -/
def Event.stopPropagation (e : Event) : Event :=
  { e with propagationStopped := true }

/-- Embeds `evt.stopImmediatePropagation()`. -/
def Event.stopImmediatePropagation (e : Event) : Event :=
  { e with immediatePropagationStopped := true, propagationStopped := true }

/-- Embeds `evt.preventDefault()`. -/
def Event.preventDefault (e : Event) : Event :=
  { e with defaultPrevented := true }

/-- The loop body of `getIndexOfTarget`: walk the composed path in order;
for a `ListItemBase` path element take `elements.indexOf(pathItem)`,
otherwise `-1`; return the first index that is not `-1`. -/
def getIndexOfTargetLoop (elements : List ListItem) : List DomNode → Int
  | [] => -1
  | p :: ps =>
    let index : Int :=
      match p with
      | .item it => jsIndexOf elements it
      | .other _ _ => -1
    if index ≠ -1 then index else getIndexOfTargetLoop elements ps

/-- Embeds `getIndexOfTarget(evt)`: resolve the list-item index of an event's
target by walking `evt.composedPath()`. -/
def ListBase.getIndexOfTarget (s : ListBase) (evt : Event) : Int :=
  getIndexOfTargetLoop s.items evt.path

/-- The `index` getter: `mdcFoundation.getSelectedIndex()` when the
foundation exists, `-1` otherwise. -/
def ListBase.index (s : ListBase) : MDCListIndex :=
  match s.mdcFoundation with
  | some f => f.getSelectedIndex
  | none => .one (-1)

/-- Result of the `selected` getter: `null`, a single
`ListItemBase | undefined`, or an array of them. -/
inductive SelectedResult where
  | nullRes
  | one (it : Option ListItem)
  | many (its : List (Option ListItem))
deriving Repr, DecidableEq

/-- The `selected` getter: `null` when the integer index is `-1`,
`this.items[index]` for any other integer, `index.map(i => this.items[i])`
for an array index. -/
def ListBase.selected (s : ListBase) : SelectedResult :=
  match s.index with
  | .one i => if i = -1 then .nullRes else .one (jsGet s.items i)
  | .many l => .many (l.map (jsGet s.items))

/-- A dispatched `CustomEvent`: its type string, `bubbles`/`composed`
flags, and the `detail` payload. -/
structure CustomEventRec where
  name : String
  bubbles : Bool := false
  composed : Bool := false
  detailIndex : MDCListIndex
deriving Repr, DecidableEq

/-- Embeds `selectUi(index)`: mark the item at `index` selected, if present. -/
def ListBase.selectUi (s : ListBase) (index : Int) : ListBase :=
  match jsGet s.items index with
  | none => s
  | some it =>
    { s with items_ := s.items_.set index.toNat { it with selected := true } }

/-- Embeds `deselectUi(index)`: mark the item at `index` unselected, if present. -/
def ListBase.deselectUi (s : ListBase) (index : Int) : ListBase :=
  match jsGet s.items index with
  | none => s
  | some it =>
    { s with items_ := s.items_.set index.toNat { it with selected := false } }

/-- Embeds `select(index)`: return unchanged with no event when the foundation is
absent; otherwise forward the index to `setSelectedIndex`, update the
selected UI state, and dispatch a bubbling, composed `selected` event
whose detail carries the index. -/
def ListBase.select (s : ListBase) (index : MDCListIndex) :
    ListBase × List CustomEventRec :=
  match s.mdcFoundation with
  | none => (s, [])
  | some f =>
    let s1 := { s with mdcFoundation := some { f with selectedIndex := index } }
    let s2 :=
      match index with
      | .one i => s1.selectUi i
      | .many l => l.foldl ListBase.selectUi s1
    (s2, [{ name := "selected", bubbles := true, composed := true,
            detailIndex := index }])

/-- A slotted child as `updateItems` sees it: either an element carrying
the `mwc-list-item` attribute (taken as a `ListItemBase`), or any other
element, represented by the `[mwc-list-item]` descendants its
`querySelectorAll` call returns. -/
inductive SlottedNode where
  | listItem (it : ListItem)
  | container (descendants : List ListItem)
deriving Repr, DecidableEq

/-- The map/reduce of `updateItems`: each node with the attribute
contributes itself, every other node contributes its matching
descendants, concatenated in order. -/
def collectListItems (nodes : List SlottedNode) : List ListItem :=
  nodes.flatMap (fun n =>
    match n with
    | .listItem it => [it]
    | .container ds => ds)

/-- One `kvAttrs` update: `setAttribute name v` / `removeAttribute name`. -/
def setKvAttr (it : ListItem) (name : String) (v : Option String) : ListItem :=
  match v with
  | some value =>
    { it with kvAttrs := (name, value) :: it.kvAttrs.filter (fun p => p.1 ≠ name) }
  | none =>
    { it with kvAttrs := it.kvAttrs.filter (fun p => p.1 ≠ name) }

/-- The `forEach` body of `updateItems` applied to each item: set the
`role` attribute when `itemRoles` is non-null, remove it otherwise. -/
def applyRole (itemRoles : Option String) (it : ListItem) : ListItem :=
  setKvAttr it "role" itemRoles

/-- The `selectedIndicies` array `updateItems` collects: the indices of
the items whose `selected` property is true. -/
def selectedIndices (items : List ListItem) : List Int :=
  ((List.range items.length).filter
    (fun i => (items.get? i).map ListItem.selected = some true)).map Int.ofNat

/-- The `selectable` property observer: update the field, then, when the
foundation exists, call `setSingleSelection(!value)` on it. -/
def ListBase.setSelectable (s : ListBase) (value : Bool) : ListBase :=
  let s1 := { s with selectable := value }
  match s1.mdcFoundation with
  | none => s1
  | some f => { s1 with mdcFoundation := some { f with singleSelection := !value } }

/-- The `activatable` property observer: update the field, then, when the
foundation exists, call `setUseActivatedClass(value)` on it. -/
def ListBase.setActivatable (s : ListBase) (value : Bool) : ListBase :=
  let s1 := { s with activatable := value }
  match s1.mdcFoundation with
  | none => s1
  | some f => { s1 with mdcFoundation := some { f with useActivatedClass := value } }

/-- The `wrapFocus` property observer: update the field, then, when the
foundation exists, call `setWrapFocus(!value)` on it. -/
def ListBase.setWrapFocus (s : ListBase) (value : Bool) : ListBase :=
  let s1 := { s with wrapFocus := value }
  match s1.mdcFoundation with
  | none => s1
  | some f => { s1 with mdcFoundation := some { f with wrapFocus := !value } }

/-- A foundation method invocation made by an event handler. -/
inductive FoundationCall where
  | handleFocusIn (index : Int)
  | handleFocusOut (index : Int)
  | handleKeydown (isRootListItem : Bool) (index : Int)
  | handleClick (index : Int) (toggleCheckbox : Bool)
deriving Repr, DecidableEq

/-- Embeds `onFocusIn`: when both the foundation and the root exist, resolve the
target index and call `handleFocusIn`. The event is returned as the
handler leaves it. -/
def ListBase.onFocusIn (s : ListBase) (evt : Event) :
    List FoundationCall × Event :=
  match s.mdcFoundation, s.mdcRoot with
  | some _, some _ => ([.handleFocusIn (s.getIndexOfTarget evt)], evt)
  | _, _ => ([], evt)

/-- Embeds `onFocusOut`: when both the foundation and the root exist, resolve the
target index and call `handleFocusOut`. -/
def ListBase.onFocusOut (s : ListBase) (evt : Event) :
    List FoundationCall × Event :=
  match s.mdcFoundation, s.mdcRoot with
  | some _, some _ => ([.handleFocusOut (s.getIndexOfTarget evt)], evt)
  | _, _ => ([], evt)

/-- Embeds `onKeydown`: when both the foundation and the root exist, resolve the
target index, test `target instanceof ListItemBase`, and call
`handleKeydown`. -/
def ListBase.onKeydown (s : ListBase) (evt : Event) :
    List FoundationCall × Event :=
  match s.mdcFoundation, s.mdcRoot with
  | some _, some _ =>
    let isRootListItem :=
      match evt.target with
      | .item _ => true
      | .other _ _ => false
    ([.handleKeydown isRootListItem (s.getIndexOfTarget evt)], evt)
  | _, _ => ([], evt)

/-- Embeds `onRequestSelected`: do nothing without a foundation; return early when
the resolved index is `-1` or the resolved item is disabled; otherwise call
`handleClick(index, evt.detail.hasCheckboxOrRadio)`.  The item lookup is
embedded fallibly (`none` would be a `TypeError` reading `disabled` of
`undefined`). -/
def ListBase.onRequestSelected (s : ListBase) (evt : Event) :
    Option (List FoundationCall × Event) :=
  match s.mdcFoundation with
  | none => some ([], evt)
  | some _ =>
    let index := s.getIndexOfTarget evt
    if index = -1 then some ([], evt)
    else
      match jsGet s.items index with
      | none => none
      | some element =>
        if element.disabled then some ([], evt)
        else some ([.handleClick index evt.detailHasCheckboxOrRadio], evt)

/-- The items array `updateItems` rebuilds: the collected list items with
the role attribute applied. -/
def ListBase.rebuiltItems (s : ListBase) (nodes : List SlottedNode) :
    List ListItem :=
  (collectListItems nodes).map (applyRole s.itemRoles)

/-- Embeds `updateItems()`: rebuild `items_` from the slotted nodes, apply the
role attribute to every item, and when at least one item is selected call
`select` with the single index (exactly one selected) or the array of all
selected indices (otherwise). -/
def ListBase.updateItems (s : ListBase) (nodes : List SlottedNode) :
    ListBase × List CustomEventRec :=
  if (selectedIndices (s.rebuiltItems nodes)).length ≠ 0 then
    ListBase.select { s with items_ := s.rebuiltItems nodes }
      (match selectedIndices (s.rebuiltItems nodes) with
       | [i] => .one i
       | _ => .many (selectedIndices (s.rebuiltItems nodes)))
  else
    ({ s with items_ := s.rebuiltItems nodes }, [])

/-- Adapter `getListItemCount`: `items.length` when the root exists,
`0` otherwise. -/
def ListBase.getListItemCount (s : ListBase) : Nat :=
  match s.mdcRoot with
  | some _ => s.items.length
  | none => 0

/-- Embeds `items.indexOf(activeItem as ListItemBase)`: a non-`ListItemBase` node
cast to one is never an element of `items`. -/
def domIndexOf (items : List ListItem) (n : DomNode) : Int :=
  match n with
  | .item it => jsIndexOf items it
  | .other _ _ => -1

/-- The backwards loop of `getFocusedElementIndex`, run here over the
reversed active-element path: return `items.indexOf` of the first node
(from the end) that has the `mwc-list-item` attribute. -/
def gfeiLoop (items : List ListItem) : List DomNode → Int
  | [] => -1
  | n :: rest =>
    if n.hasAttr "mwc-list-item" then domIndexOf items n
    else gfeiLoop items rest

/-- Adapter `getFocusedElementIndex`: `-1` without a root, with no items,
or with an empty active-element path (the result of the external
`deepActiveElementPath()` utility, passed in as a parameter); otherwise
scan the path from its end for a node with the `mwc-list-item`
attribute. -/
def ListBase.getFocusedElementIndex (s : ListBase)
    (activeElementPath : List DomNode) : Int :=
  match s.mdcRoot with
  | none => -1
  | some _ =>
    if s.items.length = 0 then -1
    else if activeElementPath.length = 0 then -1
    else gfeiLoop s.items activeElementPath.reverse

/-- Adapter `getAttributeForElementIndex`: `""` without a root, otherwise
`element.getAttribute(attr)` when the element exists and `""` when not. -/
def ListBase.getAttributeForElementIndex (s : ListBase) (index : Int)
    (attr : String) : Option String :=
  match s.mdcRoot with
  | none => some ""
  | some _ =>
    match jsGet s.items index with
    | none => some ""
    | some element => element.getAttr attr

/-- Adapter `setAttributeForElementIndex`: no-op without a root or without
an element at the index; otherwise set the attribute. -/
def ListBase.setAttributeForElementIndex (s : ListBase) (index : Int)
    (attr : String) (val : String) : ListBase :=
  match s.mdcRoot with
  | none => s
  | some _ =>
    match jsGet s.items index with
    | none => s
    | some element =>
      { s with items_ := s.items_.set index.toNat (setKvAttr element attr (some val)) }

/-- Adapter `addClassForElementIndex`: no-op without a root or without an
element; otherwise add the class, and for the selected/activated classes
also run `selectUi`. -/
def ListBase.addClassForElementIndex (s : ListBase) (index : Int)
    (className : String) : ListBase :=
  match s.mdcRoot with
  | none => s
  | some _ =>
    match jsGet s.items index with
    | none => s
    | some element =>
      let element2 :=
        if element.classes.contains className then element
        else { element with classes := element.classes ++ [className] }
      let s1 := { s with items_ := s.items_.set index.toNat element2 }
      if className = "mdc-list-item--selected" ||
         className = "mdc-list-item--activated" then
        s1.selectUi index
      else s1

/-- Adapter `removeClassForElementIndex`.  The source's guard body is the
bare expression statement `this.remove;`, which has no effect, so when the
element is absent control falls through to
`element.classList.remove(className)` and throws (`none`); when the
element exists the class is removed and the selected/activated classes
also run `deselectUi`. -/
def ListBase.removeClassForElementIndex (s : ListBase) (index : Int)
    (className : String) : Option ListBase :=
  match jsGet s.items index with
  | none => none
  | some element =>
    let element2 :=
      { element with classes := element.classes.filter (fun c => c ≠ className) }
    let s1 := { s with items_ := s.items_.set index.toNat element2 }
    if className = "mdc-list-item--selected" ||
       className = "mdc-list-item--activated" then
      some (s1.deselectUi index)
    else some s1

/-- Adapter `hasCheckboxAtIndex`: `element.hasAttribute` guarded by the
ternary, `false` when the element is absent. -/
def ListBase.hasCheckboxAtIndex (s : ListBase) (index : Int) : Bool :=
  match jsGet s.items index with
  | none => false
  | some element => element.hasAttr "mwc-check-list-item"

/-- Adapter `hasRadioAtIndex`: like `hasCheckboxAtIndex` for the radio
marker attribute. -/
def ListBase.hasRadioAtIndex (s : ListBase) (index : Int) : Bool :=
  match jsGet s.items index with
  | none => false
  | some element => element.hasAttr "mwc-radio-list-item"

/-- Adapter `isCheckboxCheckedAtIndex`.  The source computes
`element.hasAttribute('mwc-check-list-item')` before the
`element ? ... : false` ternary tests the element, so an absent element
throws (`none`) and the `false` branch is unreachable. -/
def ListBase.isCheckboxCheckedAtIndex (s : ListBase) (index : Int) :
    Option Bool :=
  match jsGet s.items index with
  | none => none
  | some element =>
    some (element.hasAttr "mwc-check-list-item" && element.selected)

/-- Adapter `setCheckedCheckboxOrRadioAtIndex`: set `selected` on the
element when it exists, no-op otherwise. -/
def ListBase.setCheckedCheckboxOrRadioAtIndex (s : ListBase) (index : Int)
    (isChecked : Bool) : ListBase :=
  match jsGet s.items index with
  | none => s
  | some element =>
    { s with items_ := s.items_.set index.toNat { element with selected := isChecked } }

/-- Adapter `notifyAction`: dispatch a bubbling `action` custom event whose
detail carries the index. -/
def notifyAction (index : Int) : List CustomEventRec :=
  [{ name := "action", bubbles := true, composed := false,
     detailIndex := .one index }]

/-- Adapter `isRootFocused`: reads `mdcRoot.getRootNode().activeElement`
with no guard, so a missing root throws (`none`); otherwise whether the
shadow root's active element is the root. -/
def ListBase.isRootFocused (s : ListBase) : Option Bool :=
  match s.mdcRoot with
  | none => none
  | some root => some root.activeElementIsRoot

/-- Adapter `listItemAtIndexHasClass`: `false` when the item is absent,
otherwise `classList.contains`. -/
def ListBase.listItemAtIndexHasClass (s : ListBase) (index : Int)
    (className : String) : Bool :=
  match jsGet s.items index with
  | none => false
  | some item => item.classes.contains className

/-- The handler methods the `render` template binds. -/
inductive HandlerRef where
  | keydown
  | focusin
  | focusout
  | requestSelected
  | slotchange
  | listItemRendered
deriving Repr, DecidableEq

/-- The event listeners `render()` attaches to the root `<ul>` element:
each pair is the DOM event type and the bound handler. -/
def renderRootListeners : List (String × HandlerRef) :=
  [("keydown", .keydown), ("focusin", .focusin), ("focusout", .focusout),
   ("request-selected", .requestSelected)]

/-- The event listeners `render()` attaches to the `<slot>` element. -/
def renderSlotListeners : List (String × HandlerRef) :=
  [("slotchange", .slotchange), ("list-item-rendered", .listItemRendered)]

/-- Specification-side reading of target resolution: the first element of
the composed path that is a list item contained in `items`. -/
def firstListItemInItems (items : List ListItem) : List DomNode → Option ListItem
  | [] => none
  | DomNode.item it :: ps =>
    if it ∈ items then some it else firstListItemInItems items ps
  | DomNode.other _ _ :: ps => firstListItemInItems items ps

/-- Specification-side reading of `getIndexOfTarget`: the index within the
items array of the first path element that is a list item contained in
`items`, `-1` when there is none. -/
def specIndexOfTarget (items : List ListItem) (path : List DomNode) : Int :=
  match firstListItemInItems items path with
  | none => -1
  | some it => ((List.indexOf it items : Nat) : Int)

/-- Concrete list items used to witness the theorems below. -/
def wItemA : ListItem := { id := 0 }

/-- A concrete selected list item. -/
def wItemB : ListItem := { id := 1, selected := true }

/-- A concrete foundation whose stored selected index is `1`. -/
def wFoundation : MDCListFoundation := { selectedIndex := .one 1 }

/-- A concrete fully-initialised component state. -/
def wState : ListBase :=
  { mdcFoundation := some wFoundation, mdcRoot := some {},
    items_ := [wItemA, wItemB] }

/-- A concrete event whose composed path contains the second item. -/
def wEvent : Event :=
  { path := [DomNode.other 7 [], DomNode.item wItemB],
    target := DomNode.item wItemB }

/-- Concrete slotted nodes: one direct list item (selected) and one
container holding another. -/
def wNodes : List SlottedNode :=
  [SlottedNode.listItem wItemB, SlottedNode.container [wItemA]]

theorem jsIndexOf_eq (l : List ListItem) (x : ListItem) :
    jsIndexOf l x = if x ∈ l then ((List.indexOf x l : Nat) : Int) else -1 := by
  induction l with
  | nil => simp [jsIndexOf]
  | cons a as ih =>
    by_cases hax : a = x
    · subst hax
      simp [jsIndexOf, List.indexOf_cons_self]
    · simp only [jsIndexOf, if_neg hax, ih]
      by_cases hm : x ∈ as
      · have hmem : x ∈ a :: as := List.mem_cons_of_mem a hm
        have hne : ((List.indexOf x as : Nat) : Int) ≠ -1 := by
          omega
        simp only [if_pos hm, if_neg hne, if_pos hmem,
          List.indexOf_cons_ne _ hax]
        push_cast
        ring
      · have hnm : x ∉ a :: as := by
          simp [hax, hm]
          exact fun h => absurd h.symm hax
        simp [hm, hnm]

theorem firstListItemInItems_mem {items : List ListItem} {it : ListItem} :
    ∀ {path : List DomNode}, firstListItemInItems items path = some it →
      it ∈ items ∧ DomNode.item it ∈ path := by
  intro path
  induction path with
  | nil => intro h; simp [firstListItemInItems] at h
  | cons p ps ih =>
    intro h
    cases p with
    | item jt =>
      by_cases hm : jt ∈ items
      · simp only [firstListItemInItems, if_pos hm, Option.some.injEq] at h
        subst h
        exact ⟨hm, List.mem_cons_self _ _⟩
      · simp only [firstListItemInItems, if_neg hm] at h
        rcases ih h with ⟨h1, h2⟩
        exact ⟨h1, List.mem_cons_of_mem _ h2⟩
    | other i attrs =>
      simp only [firstListItemInItems] at h
      rcases ih h with ⟨h1, h2⟩
      exact ⟨h1, List.mem_cons_of_mem _ h2⟩

theorem giotLoop_eq_spec (items : List ListItem) (path : List DomNode) :
    getIndexOfTargetLoop items path =
      (match firstListItemInItems items path with
       | none => -1
       | some it => ((List.indexOf it items : Nat) : Int)) := by
  induction path with
  | nil => rfl
  | cons p ps ih =>
    cases p with
    | item it =>
      simp only [getIndexOfTargetLoop, jsIndexOf_eq]
      by_cases hm : it ∈ items
      · have hne : ((List.indexOf it items : Nat) : Int) ≠ -1 := by omega
        simp [firstListItemInItems, hm, hne]
      · simp [firstListItemInItems, hm, ih]
    | other i attrs =>
      simp only [getIndexOfTargetLoop, firstListItemInItems]
      simpa using ih

theorem getIndexOfTarget_resolve (s : ListBase) (evt : Event)
    (h : s.getIndexOfTarget evt ≠ -1) :
    ∃ n : Nat, s.getIndexOfTarget evt = (n : Int) ∧ n < s.items.length ∧
      ∃ it, s.items.get? n = some it ∧ DomNode.item it ∈ evt.path := by
  have hspec := giotLoop_eq_spec s.items evt.path
  unfold ListBase.getIndexOfTarget at h ⊢
  rw [hspec] at h ⊢
  cases hfi : firstListItemInItems s.items evt.path with
  | none => rw [hfi] at h; simp at h
  | some it =>
    rcases firstListItemInItems_mem hfi with ⟨hmem, hpath⟩
    refine ⟨List.indexOf it s.items, rfl, ?_, it, ?_, hpath⟩
    · exact List.indexOf_lt_length.mpr hmem
    · exact List.indexOf_get? hmem

/-- C1: `getIndexOfTarget` walks the event's composed path linearly from
its start and returns the index within the items array of the first path
element that is a list item contained in `items`; `-1` when there is no
such path element. -/
theorem getIndexOfTarget_eq_spec (s : ListBase) (evt : Event) :
    s.getIndexOfTarget evt = specIndexOfTarget s.items evt.path := by
  unfold ListBase.getIndexOfTarget specIndexOfTarget
  exact giotLoop_eq_spec s.items evt.path

/-- C9: `getIndexOfTarget` returns either `-1` or an in-range index `n`
such that the item at position `n` of the items array lies on the event's
composed path; it never returns an out-of-range index. -/
theorem getIndexOfTarget_inRange (s : ListBase) (evt : Event) :
    s.getIndexOfTarget evt = -1 ∨
    ∃ n : Nat, s.getIndexOfTarget evt = (n : Int) ∧ n < s.items.length ∧
      ∃ it, s.items.get? n = some it ∧ DomNode.item it ∈ evt.path := by
  by_cases h : s.getIndexOfTarget evt = -1
  · exact Or.inl h
  · exact Or.inr (getIndexOfTarget_resolve s evt h)

/-- C6: selection-index bookkeeping is a pass-through to the foundation:
with the foundation present the `index` getter returns exactly
`getSelectedIndex()`, and the `selected` getter returns `null` exactly
when that index is the integer `-1`, the item at that position for any
other integer, and the list of items at those positions for an array of
indices. -/
theorem index_selected_passthrough (s : ListBase) (f : MDCListFoundation)
    (h : s.mdcFoundation = some f) :
    s.index = f.getSelectedIndex ∧
    (s.selected = SelectedResult.nullRes ↔
      f.getSelectedIndex = MDCListIndex.one (-1)) ∧
    (∀ i : Int, f.getSelectedIndex = MDCListIndex.one i → i ≠ -1 →
      s.selected = SelectedResult.one (jsGet s.items i)) ∧
    (∀ l : List Int, f.getSelectedIndex = MDCListIndex.many l →
      s.selected = SelectedResult.many (l.map (jsGet s.items))) := by
  have hidx : s.index = f.getSelectedIndex := by
    unfold ListBase.index
    rw [h]
  refine ⟨hidx, ?_, ?_, ?_⟩
  · unfold ListBase.selected
    rw [hidx]
    cases hgi : f.getSelectedIndex with
    | one i =>
      by_cases hi : i = -1
      · subst hi; simp
      · simp [hi]
    | many l => simp
  · intro i hgi hi
    unfold ListBase.selected
    rw [hidx, hgi]
    simp [hi]
  · intro l hgi
    unfold ListBase.selected
    rw [hidx, hgi]

/-- Witness for C6: the concrete state stores selected index `1`, the
getters pass it through. -/
theorem index_selected_passthrough_witness :
    wState.mdcFoundation = some wFoundation ∧
    wState.index = wFoundation.getSelectedIndex ∧
    wState.selected = SelectedResult.one (jsGet wState.items 1) := by
  have h := index_selected_passthrough wState wFoundation rfl
  exact ⟨rfl, h.1, h.2.2.1 1 rfl (by decide)⟩

/-- C3 counterexample: with the root element absent, `isRootFocused` does
not return a boolean — `mdcRoot.getRootNode()` is an unguarded dereference
of the missing root, so the callback faults (`none`). -/
theorem isRootFocused_missingRoot_faults :
    ListBase.isRootFocused {} = none := rfl

/-- C3 (amended): with the root missing, `getFocusedElementIndex` returns
`-1`, `getAttributeForElementIndex` returns the empty string and
`getListItemCount` returns `0`; the `index` getter returns `-1` when the
foundation is absent.  `isRootFocused`, however, dereferences the root
unguarded and faults when it is missing. -/
theorem adapter_missingRoot_defaults (s : ListBase) (path : List DomNode)
    (i : Int) (a : String) (hroot : s.mdcRoot = none) :
    s.getFocusedElementIndex path = -1 ∧
    s.getAttributeForElementIndex i a = some "" ∧
    s.getListItemCount = 0 ∧
    (s.mdcFoundation = none → s.index = MDCListIndex.one (-1)) := by
  unfold ListBase.getFocusedElementIndex ListBase.getAttributeForElementIndex
    ListBase.getListItemCount ListBase.index
  rw [hroot]
  refine ⟨rfl, rfl, rfl, ?_⟩
  intro hf
  rw [hf]

/-- Witness for the amended C3 at the default (rootless, foundationless)
state. -/
theorem adapter_missingRoot_defaults_witness :
    ListBase.getListItemCount {} = 0 ∧
    ListBase.index {} = MDCListIndex.one (-1) := by
  have h := adapter_missingRoot_defaults {} [] 0 "role" rfl
  exact ⟨h.2.2.1, h.2.2.2 rfl⟩

/-- C2 (code bug): at an index with no item, `isCheckboxCheckedAtIndex`
reads `element.hasAttribute` before its `element ? ... : false` ternary
and `removeClassForElementIndex` reaches `element.classList.remove` (its
guard body is the effect-free expression statement `this.remove;`), so
both dereference the absent element and fault instead of returning `false`
and doing nothing. -/
theorem absentItem_callbacks_fault :
    ListBase.isCheckboxCheckedAtIndex {} 0 = none ∧
    ListBase.removeClassForElementIndex {} 0 "mdc-list-item--selected" = none :=
  ⟨rfl, rfl⟩

/-- C4 (code bug): with the foundation present, setting `wrapFocus` to
`true` writes `false` into the foundation's wrap-focus setting (the
observer calls `setWrapFocus(!value)`), the opposite of the flag, while
`activatable` is forwarded unnegated as `setUseActivatedClass(value)` and
`selectable` maps to `setSingleSelection(!value)`. -/
theorem setWrapFocus_negates :
    ((ListBase.setWrapFocus { mdcFoundation := some {} } true).mdcFoundation.map
        MDCListFoundation.wrapFocus) = some false ∧
    ((ListBase.setActivatable { mdcFoundation := some {} } true).mdcFoundation.map
        MDCListFoundation.useActivatedClass) = some true ∧
    ((ListBase.setSelectable { mdcFoundation := some {} } true).mdcFoundation.map
        MDCListFoundation.singleSelection) = some false :=
  ⟨rfl, rfl, rfl⟩

/-- C5 counterexample: `select` invoked on a component without a
foundation dispatches no event at all, so the `selected`
(selection-changed) event is not dispatched on every call of `select`. -/
theorem select_noFoundation_noEvent :
    (ListBase.select {} (MDCListIndex.one 0)).2 = [] := rfl

/-- C5 (amended): the custom-event surface: `render` binds the
`request-selected` event to its handler; `notifyAction` dispatches one
bubbling `action` event carrying the index in its detail; and `select`
dispatches one `selected` (selection-changed) event carrying the selected
index whenever it is called with the foundation present. -/
theorem event_surface (s : ListBase) (f : MDCListFoundation)
    (i : Int) (idx : MDCListIndex) (h : s.mdcFoundation = some f) :
    ("request-selected", HandlerRef.requestSelected) ∈ renderRootListeners ∧
    notifyAction i = [{ name := "action", bubbles := true, composed := false,
                        detailIndex := MDCListIndex.one i }] ∧
    (s.select idx).2 = [{ name := "selected", bubbles := true,
                          composed := true, detailIndex := idx }] := by
  refine ⟨by simp [renderRootListeners], rfl, ?_⟩
  unfold ListBase.select
  rw [h]

/-- Witness for the amended C5 at the concrete initialised state. -/
theorem event_surface_witness :
    (ListBase.select wState (MDCListIndex.one 0)).2 =
      [{ name := "selected", bubbles := true, composed := true,
         detailIndex := MDCListIndex.one 0 }] :=
  (event_surface wState wFoundation 0 (MDCListIndex.one 0) rfl).2.2

/-- C7: `updateItems` rebuilds the items array from the slotted elements
and synchronizes the selection model: with no selected item it leaves the
foundation untouched and dispatches nothing; with exactly one selected
index it calls `select` with that single index; with several it calls
`select` with the array of all selected indices. -/
theorem updateItems_sync (s : ListBase) (nodes : List SlottedNode) :
    (selectedIndices (s.rebuiltItems nodes) = [] →
      s.updateItems nodes = ({ s with items_ := s.rebuiltItems nodes }, [])) ∧
    (∀ i : Int, selectedIndices (s.rebuiltItems nodes) = [i] →
      s.updateItems nodes =
        ListBase.select { s with items_ := s.rebuiltItems nodes }
          (MDCListIndex.one i)) ∧
    (2 ≤ (selectedIndices (s.rebuiltItems nodes)).length →
      s.updateItems nodes =
        ListBase.select { s with items_ := s.rebuiltItems nodes }
          (MDCListIndex.many (selectedIndices (s.rebuiltItems nodes)))) := by
  refine ⟨?_, ?_, ?_⟩
  · intro h
    unfold ListBase.updateItems
    rw [h]
    simp
  · intro i h
    unfold ListBase.updateItems
    rw [h]
    simp
  · intro h2
    unfold ListBase.updateItems
    cases hsel : selectedIndices (s.rebuiltItems nodes) with
    | nil => rw [hsel] at h2; simp at h2
    | cons a as =>
      cases as with
      | nil => rw [hsel] at h2; simp at h2
      | cons b bs =>
        have hlen : (a :: b :: bs).length ≠ 0 := by simp
        rw [if_pos hlen]

/-- Witness for C7: the concrete slotted nodes hold exactly one selected
item, at rebuilt index `0`, so `updateItems` is `select` at that index. -/
theorem updateItems_sync_witness :
    ListBase.updateItems {} wNodes =
      ListBase.select { ({} : ListBase) with
                        items_ := ListBase.rebuiltItems {} wNodes }
        (MDCListIndex.one 0) :=
  (updateItems_sync {} wNodes).2.1 0 (by decide)

/-- C8: no event handler of the component customizes event propagation:
`onKeydown`, `onFocusIn`, `onFocusOut` and `onRequestSelected` never call
`stopPropagation`, `stopImmediatePropagation` or `preventDefault`, so each
returns the event exactly as it received it (all propagation and default
flags unchanged). -/
theorem handlers_preserve_event (s : ListBase) (evt : Event) :
    (s.onKeydown evt).2 = evt ∧
    (s.onFocusIn evt).2 = evt ∧
    (s.onFocusOut evt).2 = evt ∧
    (∀ r, s.onRequestSelected evt = some r → r.2 = evt) := by
  refine ⟨?_, ?_, ?_, ?_⟩
  · unfold ListBase.onKeydown
    cases s.mdcFoundation <;> cases s.mdcRoot <;> rfl
  · unfold ListBase.onFocusIn
    cases s.mdcFoundation <;> cases s.mdcRoot <;> rfl
  · unfold ListBase.onFocusOut
    cases s.mdcFoundation <;> cases s.mdcRoot <;> rfl
  · intro r hrr
    unfold ListBase.onRequestSelected at hrr
    split at hrr
    · simp only [Option.some.injEq] at hrr
      rw [← hrr]
    · simp only [] at hrr
      split at hrr
      · simp only [Option.some.injEq] at hrr
        rw [← hrr]
      · split at hrr
        · cases hrr
        · split at hrr
          · simp only [Option.some.injEq] at hrr
            rw [← hrr]
          · simp only [Option.some.injEq] at hrr
            rw [← hrr]

/-- Witness for C8 at a concrete event: the keydown handler and the
selection-request handler both return the event unchanged. -/
theorem handlers_preserve_event_witness :
    (ListBase.onKeydown {} wEvent).2 = wEvent ∧
    ∃ r, ListBase.onRequestSelected {} wEvent = some r ∧ r.2 = wEvent :=
  ⟨(handlers_preserve_event {} wEvent).1,
   ⟨([], wEvent), rfl,
    (handlers_preserve_event {} wEvent).2.2.2 ([], wEvent) rfl⟩⟩

/-- C10: with the foundation present, `onRequestSelected` ignores the
request (no foundation call) when the composed path resolves to no list
item (`-1`) or the resolved item is disabled; otherwise it calls
`handleClick` with the resolved index and the detail's checkbox/radio
flag.  The resolved item always exists when the index is not `-1`. -/
theorem onRequestSelected_behavior (s : ListBase) (evt : Event)
    (f : MDCListFoundation) (h : s.mdcFoundation = some f) :
    (s.getIndexOfTarget evt = -1 → s.onRequestSelected evt = some ([], evt)) ∧
    (s.getIndexOfTarget evt ≠ -1 →
      ∃ el, jsGet s.items (s.getIndexOfTarget evt) = some el ∧
        (el.disabled = true → s.onRequestSelected evt = some ([], evt)) ∧
        (el.disabled = false →
          s.onRequestSelected evt =
            some ([FoundationCall.handleClick (s.getIndexOfTarget evt)
                     evt.detailHasCheckboxOrRadio], evt))) := by
  constructor
  · intro hi
    unfold ListBase.onRequestSelected
    rw [h, if_pos hi]
  · intro hi
    rcases getIndexOfTarget_resolve s evt hi with ⟨n, hn, hlen, it, hget, hpathmem⟩
    have hjs : jsGet s.items (s.getIndexOfTarget evt) = some it := by
      rw [hn]
      unfold jsGet
      have hnn : ¬ ((n : Int) < 0) := by omega
      rw [if_neg hnn]
      simpa using hget
    refine ⟨it, hjs, ?_, ?_⟩
    · intro hd
      unfold ListBase.onRequestSelected
      rw [h]
      simp only [if_neg hi, hjs, hd, if_true]
    · intro hd
      unfold ListBase.onRequestSelected
      rw [h]
      simp only [if_neg hi, hjs, hd, Bool.false_eq_true, if_false]

/-- Witness for C10 at the concrete state: the event resolves to index
`1`, the item there exists and is enabled, so `handleClick` is called. -/
theorem onRequestSelected_behavior_witness :
    ListBase.getIndexOfTarget wState wEvent ≠ -1 ∧
    ∃ el, jsGet wState.items (ListBase.getIndexOfTarget wState wEvent) = some el ∧
      (el.disabled = false →
        ListBase.onRequestSelected wState wEvent =
          some ([FoundationCall.handleClick (ListBase.getIndexOfTarget wState wEvent)
                   wEvent.detailHasCheckboxOrRadio], wEvent)) := by
  refine ⟨by decide, ?_⟩
  rcases (onRequestSelected_behavior wState wEvent wFoundation rfl).2 (by decide)
    with ⟨el, hel, hc⟩
  exact ⟨el, hel, hc.2⟩

end MwcList
